import Mathlib

/-!
# Verification of the Hermes price-relayer scheduling and decision engine

Shallow embedding of `src/hermes-client.ts` (class `HermesClient`):

* the deviation decision engine (`#canIgnorePriceUpdate`,
  `#isPriceDeviationAcceptable`), embedded over exact rationals — the
  JavaScript code computes `parseFloat(mantissa) * Math.pow(10, expo)`,
  which we model as the exact value `mantissa * 10 ^ expo : ℚ`;
* the lifecycle controller (`start`, the abort listener, the
  self-rescheduling `updatePrice` loop), embedded as a deterministic
  labelled transition system whose atomic steps are the synchronous
  blocks between `await` suspension points of the single-threaded
  event loop;
* the status reporter (`getStatus`).
-/

namespace Hermes

/-! ## Data model

`PythPriceData.price` (new quote) and `PriceResponse` (current on-chain
price) share the shape used by the decision engine: an unsigned decimal
mantissa string (`Uint128`/decimal string, hence `ℕ`), a signed exponent
`expo : ℤ`, and an integer `publish_time`. -/

/-- A price record as seen by the decision engine: the mantissa encoded by
the decimal string `price`, the confidence `conf` (unused in decisions),
the decimal exponent `expo`, and the publish time in seconds. -/
structure PriceRecord where
  price : ℕ
  conf : ℕ
  expo : ℤ
  publish_time : ℤ
  deriving Repr, DecidableEq

/-- The two tolerance kinds of `HermesConfig.priceDeviationTolerance.type`. -/
inductive ToleranceType where
  | absolute
  | percentage
  deriving Repr, DecidableEq

/-- Embedding of `HermesConfig.priceDeviationTolerance`: a kind and a
numeric value.  The JavaScript `number` is modelled as an exact rational. -/
structure PriceDeviationTolerance where
  type : ToleranceType
  value : ℚ
  deriving Repr, DecidableEq

/-- Embedding of `DEFAULT_PRICE_DEVIATION_TOLERANCE = { type: "absolute",
value: 0 }` (hermes-client.ts line 181). -/
def DEFAULT_PRICE_DEVIATION_TOLERANCE : PriceDeviationTolerance :=
  { type := ToleranceType.absolute, value := 0 }

/-- JavaScript `Number.MAX_SAFE_INTEGER`. -/
def MAX_SAFE_INTEGER : ℚ := 9007199254740991

/-- The normalization `parseFloat(price) * Math.pow(10, expo)` applied to a
record, as an exact rational. -/
def normalizedValue (p : PriceRecord) : ℚ :=
  (p.price : ℚ) * (10 : ℚ) ^ p.expo

/-- Embedding of `HermesClient.#isPriceDeviationAcceptable`
(hermes-client.ts lines 539-567), over exact rationals.  The `else` branch throwing
`Unknown price deviation tolerance type` is unreachable here because
`ToleranceType` has exactly the two constructors the code recognises. -/
def isPriceDeviationAcceptable (tol : PriceDeviationTolerance)
    (newPrice currentPrice : PriceRecord) : Bool :=
  let newPriceValue := normalizedValue newPrice
  let currentPriceValue := normalizedValue currentPrice
  match tol.type with
  | ToleranceType.absolute =>
      let deviation := |newPriceValue - currentPriceValue|
      decide (deviation ≤ tol.value)
  | ToleranceType.percentage =>
      let deviationPercent : ℚ :=
        if currentPriceValue = 0 then MAX_SAFE_INTEGER
        else |newPriceValue - currentPriceValue| / currentPriceValue
      decide (deviationPercent ≤ tol.value / 100)

/-- Embedding of `HermesClient.#canIgnorePriceUpdate` (hermes-client.ts
lines 524-537). -/
def canIgnorePriceUpdate (tol : PriceDeviationTolerance)
    (newPrice currentPrice : PriceRecord) : Bool :=
  if newPrice.publish_time ≤ currentPrice.publish_time then
    true
  else if isPriceDeviationAcceptable tol newPrice currentPrice then
    true
  else
    false

/-- The pre-submit decision of one `updatePrice` cycle, distinguishing the
two skip reasons the code logs from the submit path. -/
inductive UpdateDecision where
  | skippedStale
  | skippedWithinTolerance
  | submit
  deriving Repr, DecidableEq

/-- The decision taken by `updatePrice` via `#canIgnorePriceUpdate`: the
first branch (stale publish time) yields `skippedStale`, the second
(deviation acceptable) yields `skippedWithinTolerance`, and otherwise the
cycle falls through to submission. -/
def updateDecision (tol : PriceDeviationTolerance)
    (newPrice currentPrice : PriceRecord) : UpdateDecision :=
  if newPrice.publish_time ≤ currentPrice.publish_time then
    UpdateDecision.skippedStale
  else if isPriceDeviationAcceptable tol newPrice currentPrice then
    UpdateDecision.skippedWithinTolerance
  else
    UpdateDecision.submit

/-- Whether `updatePrice` reaches the ledger submit path
(`this.#getCosmClient().execute`): it does exactly when
`#canIgnorePriceUpdate` returns `false`. -/
def submitInvoked (tol : PriceDeviationTolerance)
    (newPrice currentPrice : PriceRecord) : Bool :=
  ! canIgnorePriceUpdate tol newPrice currentPrice

/-! ## Lifecycle controller / scheduler

The `start` method (hermes-client.ts lines 569-617) runs on a
single-threaded event loop: execution is a sequence of atomic synchronous
blocks separated by `await` suspension points and timer callbacks.  We
embed it as a deterministic labelled transition system.  A label names one
synchronous block; `step` returns `none` when the block cannot run in the
given state (its enabling condition fails).

State fields:
* `isRunning` — the `#isRunning` flag;
* `timerPending` — whether `#updateTimer` holds an armed timeout;
* `initialPending` — a `start` call has flipped `#isRunning` but its
  awaited initial `updatePrice()` invocation has not entered yet (the
  window containing the one-time initialization);
* `activeCycles` — number of `updatePrice` closure invocations past their
  `#isRunning` guard and not yet finished (counted, rather than a flag,
  so that mutual exclusion of cycles is a provable property and not a
  modelling artifact);
* `listenerArmed` — an abort listener is registered on a signal that can
  still fire.  Registering a listener on an already-aborted signal never
  fires it (the `abort` event was dispatched before registration), so such
  a registration leaves this field unchanged. -/

/-- Scheduler state of one `HermesClient` instance. -/
structure SchedState where
  isRunning : Bool
  timerPending : Bool
  initialPending : Bool
  activeCycles : ℕ
  listenerArmed : Bool
  deriving Repr, DecidableEq

/-- The atomic synchronous blocks of the lifecycle code.

* `startCall` — the synchronous prefix of `start` with a live signal;
* `startCallAbortedSignal` — the same block called with a signal that had
  already aborted before the call: the listener is registered but can
  never fire;
* `startFail` — the one-time initialization inside the `try` of `start`
  rejects: the outer `catch` sets `#isRunning = false` and `start`
  rethrows the sanitized error;
* `abortFire` — the registered abort listener runs: clears the pending
  timeout and sets `#isRunning = false`;
* `cycleEntry` — the initial awaited `updatePrice()` invocation enters and
  passes (or fails) its `if (!this.#isRunning) return` guard;
* `timerFire` — the armed timeout fires and its `updatePrice()` invocation
  enters, with the same guard;
* `cycleEnd ok` — an in-flight `updatePrice()` invocation finishes with
  success (`ok = true`) or a caught, logged error (`ok = false`); its
  `finally` clears `#updateTimer` and, if still running, arms the next
  timeout for `updateIntervalMs` from this completion. -/
inductive SchedLabel where
  | startCall
  | startCallAbortedSignal
  | startFail
  | abortFire
  | cycleEntry
  | timerFire
  | cycleEnd (ok : Bool)
  deriving Repr, DecidableEq

/-- The synchronous prefix of `start` (hermes-client.ts lines 570-585),
one atomic block: if `#isRunning` it logs and returns (second component
`false`: the caller does not proceed); otherwise it sets
`#isRunning = true` before any asynchronous work, registers the abort
listener, and proceeds towards initialization and the initial cycle
(second component `true`). -/
def startSync (s : SchedState) : SchedState × Bool :=
  if s.isRunning then
    (s, false)
  else
    ({ s with isRunning := true, listenerArmed := true, initialPending := true },
      true)

/-- `n` callers invoke the synchronous prefix of `start` one after the
other (the event loop serializes them); returns the final state and how
many of them proceeded past the `#isRunning` guard. -/
def runStarters : ℕ → SchedState → SchedState × ℕ
  | 0, s => (s, 0)
  | n + 1, s =>
      let first := startSync s
      let rest := runStarters n first.1
      (rest.1, (if first.2 then 1 else 0) + rest.2)

/-- One atomic synchronous block of the lifecycle code as a partial state
transformer; `none` means the block is not enabled in this state. -/
def step (s : SchedState) : SchedLabel → Option SchedState
  | SchedLabel.startCall =>
      if s.isRunning then none
      else some { s with isRunning := true, listenerArmed := true,
                         initialPending := true }
  | SchedLabel.startCallAbortedSignal =>
      if s.isRunning then none
      else some { s with isRunning := true, initialPending := true }
  | SchedLabel.startFail =>
      if s.initialPending then
        some { s with initialPending := false, isRunning := false }
      else none
  | SchedLabel.abortFire =>
      if s.listenerArmed then
        some { s with timerPending := false, isRunning := false,
                      listenerArmed := false }
      else none
  | SchedLabel.cycleEntry =>
      if s.initialPending then
        some { s with initialPending := false,
                      activeCycles :=
                        s.activeCycles + (if s.isRunning then 1 else 0) }
      else none
  | SchedLabel.timerFire =>
      if s.timerPending then
        some { s with timerPending := false,
                      activeCycles :=
                        s.activeCycles + (if s.isRunning then 1 else 0) }
      else none
  | SchedLabel.cycleEnd _ =>
      if 0 < s.activeCycles then
        some { s with activeCycles := s.activeCycles - 1,
                      timerPending := s.isRunning }
      else none

/-- Run a list of atomic blocks in order; `none` as soon as one of them is
not enabled. -/
def runTrace : SchedState → List SchedLabel → Option SchedState
  | s, [] => some s
  | s, l :: ls =>
      match step s l with
      | none => none
      | some s2 => runTrace s2 ls

/-- A fresh client: not running, no timer, no pending start, no cycle in
flight, no listener. -/
def initState : SchedState :=
  { isRunning := false, timerPending := false, initialPending := false,
    activeCycles := 0, listenerArmed := false }

/-- Whether a label is one of the two `start` entry blocks. -/
def isStartLabel : SchedLabel → Bool
  | SchedLabel.startCall => true
  | SchedLabel.startCallAbortedSignal => true
  | _ => false

/-- Number of `start` entry blocks in a trace. -/
def countStarts (ls : List SchedLabel) : ℕ :=
  (ls.filter isStartLabel).length

/-- Whether a label is a cycle-completion block. -/
def isCycleEnd : SchedLabel → Bool
  | SchedLabel.cycleEnd _ => true
  | _ => false

/-- Pending work owed to the scheduler: in-flight cycles, plus an armed
timer, plus a pending initial invocation.  Each of these can start at most
one cycle. -/
def schedLoad (s : SchedState) : ℕ :=
  s.activeCycles + (if s.timerPending then 1 else 0) +
    (if s.initialPending then 1 else 0)

/-! ## Initialization failure semantics of start

For the failure-asymmetry claim we embed the whole of `start` as a
function of the outcomes of its two awaited collaborator operations: the
one-time initialization (`initialize`, guarded by `#cosmClient` being
absent) and the initial `updatePrice` cycle.  No abort interleaving is
modelled here; the trace system above covers cancellation. -/

/-- Client state relevant to the failure semantics of `start`. -/
structure ClientInitState where
  isRunning : Bool
  initialized : Bool
  timerPending : Bool
  deriving Repr, DecidableEq

/-- How `start` finishes: its promise resolves, or rejects with the
sanitized error. -/
inductive StartResult where
  | ok
  | threw
  deriving Repr, DecidableEq

/-- Embedding of `start` (hermes-client.ts lines 569-617) with no abort
interleaving, as a function of whether the one-time initialization and
the initial cycle succeed.  The initial cycle runs inside the
`updatePrice` closure whose `try`/`catch` logs and swallows its error and
whose tail arms the next timeout while `#isRunning` holds, so its outcome
never reaches the outer `catch`. -/
def startRun (s : ClientInitState) (initSucceeds cycleSucceeds : Bool) :
    ClientInitState × StartResult :=
  if s.isRunning then
    (s, StartResult.ok)
  else
    let s1 : ClientInitState := { s with isRunning := true }
    if !s1.initialized && !initSucceeds then
      ({ s1 with isRunning := false }, StartResult.threw)
    else
      let s2 : ClientInitState := { s1 with initialized := true }
      let _cycleFailureLogged := !cycleSucceeds
      ({ s2 with timerPending := true }, StartResult.ok)

/-! ## Status reporter -/

/-- The wallet secret of `HermesConfig.walletSecret`: a mnemonic phrase or
a hex private key. -/
structure WalletSecret where
  isMnemonic : Bool
  value : String
  deriving Repr, DecidableEq

/-- The in-memory fields of a `HermesClient` that `getStatus` can observe,
together with the secret and raw configuration it must not leak
(`walletSecret`, `gasPrice`, `rpcEndpoint`, `hermesEndpoint`, `denom`,
`updateIntervalMs` from `#config`). -/
structure ClientFields where
  isRunning : Bool
  senderAddress : Option String
  priceFeedId : Option String
  contractAddress : String
  walletSecret : WalletSecret
  gasPrice : String
  rpcEndpoint : String
  hermesEndpoint : String
  denom : String
  updateIntervalMs : ℕ
  deriving Repr, DecidableEq

/-- The return shape of `getStatus`: exactly the fields `isRunning`,
`address`, `priceFeedId`, `contractAddress`. -/
structure StatusSnapshot where
  isRunning : Bool
  address : Option String
  priceFeedId : Option String
  contractAddress : String
  deriving Repr, DecidableEq

/-- Embedding of `HermesClient.getStatus` (hermes-client.ts lines
623-637): a total function building the snapshot from the four
non-sensitive fields. -/
def getStatus (c : ClientFields) : StatusSnapshot :=
  { isRunning := c.isRunning
    address := c.senderAddress
    priceFeedId := c.priceFeedId
    contractAddress := c.contractAddress }

/-! ## Decision-engine lemmas -/

/-- For a strictly newer quote the stale branch is not taken, so the
decision reduces to the deviation check. -/
theorem updateDecision_of_fresh (tol : PriceDeviationTolerance)
    (newPrice currentPrice : PriceRecord)
    (hfresh : currentPrice.publish_time < newPrice.publish_time) :
    updateDecision tol newPrice currentPrice =
      if isPriceDeviationAcceptable tol newPrice currentPrice then
        UpdateDecision.skippedWithinTolerance
      else
        UpdateDecision.submit := by
  have hns : ¬ newPrice.publish_time ≤ currentPrice.publish_time :=
    not_le.mpr hfresh
  simp [updateDecision, hns]

/-- The absolute-tolerance branch of `#isPriceDeviationAcceptable` is the
boolean of the inclusive comparison `|new - current| <= value`. -/
theorem isPriceDeviationAcceptable_absolute (t : ℚ)
    (newPrice currentPrice : PriceRecord) :
    isPriceDeviationAcceptable
        { type := ToleranceType.absolute, value := t } newPrice currentPrice
      = decide (|normalizedValue newPrice - normalizedValue currentPrice| ≤ t) := rfl

/-- C1: a quote whose publish time is less than or equal to the on-chain
publish time is decided `skippedStale`, whatever the tolerance, and the
ledger submit path is not invoked. -/
theorem stale_quote_skipped (tol : PriceDeviationTolerance)
    (newPrice currentPrice : PriceRecord)
    (hstale : newPrice.publish_time ≤ currentPrice.publish_time) :
    updateDecision tol newPrice currentPrice = UpdateDecision.skippedStale ∧
      submitInvoked tol newPrice currentPrice = false := by
  refine ⟨?_, ?_⟩
  · simp [updateDecision, hstale]
  · simp [submitInvoked, canIgnorePriceUpdate, hstale]

/-- Witness for C1, on the spec scenario: on-chain publish time
9999999999, quote publish time 1234567890. -/
theorem stale_quote_skipped_witness :
    (1234567890 : ℤ) ≤ 9999999999 ∧
      (updateDecision DEFAULT_PRICE_DEVIATION_TOLERANCE
          { price := 12345, conf := 10, expo := -8, publish_time := 1234567890 }
          { price := 12345, conf := 10, expo := -8, publish_time := 9999999999 }
          = UpdateDecision.skippedStale ∧
        submitInvoked DEFAULT_PRICE_DEVIATION_TOLERANCE
          { price := 12345, conf := 10, expo := -8, publish_time := 1234567890 }
          { price := 12345, conf := 10, expo := -8, publish_time := 9999999999 }
          = false) :=
  ⟨by decide,
    stale_quote_skipped DEFAULT_PRICE_DEVIATION_TOLERANCE
      { price := 12345, conf := 10, expo := -8, publish_time := 1234567890 }
      { price := 12345, conf := 10, expo := -8, publish_time := 9999999999 }
      (by decide)⟩

/-- C2: for a strictly newer quote under absolute tolerance `t`, the
decision is `skippedWithinTolerance` exactly when the absolute difference
of the independently normalized values is at most `t` (equality included),
and otherwise the cycle submits. -/
theorem absolute_tolerance_skip_iff (t : ℚ)
    (newPrice currentPrice : PriceRecord)
    (hfresh : currentPrice.publish_time < newPrice.publish_time) :
    (updateDecision { type := ToleranceType.absolute, value := t }
        newPrice currentPrice = UpdateDecision.skippedWithinTolerance ↔
      |normalizedValue newPrice - normalizedValue currentPrice| ≤ t) ∧
    (updateDecision { type := ToleranceType.absolute, value := t }
        newPrice currentPrice = UpdateDecision.submit ↔
      ¬ |normalizedValue newPrice - normalizedValue currentPrice| ≤ t) := by
  rw [updateDecision_of_fresh _ _ _ hfresh, isPriceDeviationAcceptable_absolute]
  by_cases h : |normalizedValue newPrice - normalizedValue currentPrice| ≤ t
  · simp [h]
  · simp [h]

/-- Witness for C2, on the spec scenario: quote price 10000, expo -2,
publish time 2000 against on-chain price 10050, expo -2, publish time
1000, absolute tolerance 1: the deviation 0.50 is within tolerance and
the decision is a skip. -/
theorem absolute_tolerance_skip_iff_witness :
    (1000 : ℤ) < 2000 ∧
      updateDecision { type := ToleranceType.absolute, value := 1 }
        { price := 10000, conf := 10, expo := -2, publish_time := 2000 }
        { price := 10050, conf := 10, expo := -2, publish_time := 1000 }
        = UpdateDecision.skippedWithinTolerance :=
  ⟨by decide,
    (absolute_tolerance_skip_iff 1
      { price := 10000, conf := 10, expo := -2, publish_time := 2000 }
      { price := 10050, conf := 10, expo := -2, publish_time := 1000 }
      (by decide)).1.mpr (by norm_num [normalizedValue, abs_le])⟩

/-- The percentage-tolerance branch of `#isPriceDeviationAcceptable`:
when the normalized current value is zero the deviation is set to
`Number.MAX_SAFE_INTEGER`, otherwise it is the relative deviation, and the
comparison against `value / 100` is inclusive. -/
theorem isPriceDeviationAcceptable_percentage (p : ℚ)
    (newPrice currentPrice : PriceRecord) :
    isPriceDeviationAcceptable
        { type := ToleranceType.percentage, value := p } newPrice currentPrice
      = decide
          ((if normalizedValue currentPrice = 0 then MAX_SAFE_INTEGER
            else |normalizedValue newPrice - normalizedValue currentPrice| /
              normalizedValue currentPrice) ≤ p / 100) := rfl

/-- C3: for a strictly newer quote under percentage tolerance
`p ∈ [0, 100]`: with a nonzero normalized current value the decision is
a skip exactly when the relative deviation is at most `p / 100`
(inclusive); with a zero normalized current value the decision is never a
skip — the cycle submits. -/
theorem percentage_tolerance_skip_iff (p : ℚ)
    (newPrice currentPrice : PriceRecord)
    (hfresh : currentPrice.publish_time < newPrice.publish_time)
    (hp0 : 0 ≤ p) (hp100 : p ≤ 100) :
    (normalizedValue currentPrice ≠ 0 →
      (updateDecision { type := ToleranceType.percentage, value := p }
          newPrice currentPrice = UpdateDecision.skippedWithinTolerance ↔
        |normalizedValue newPrice - normalizedValue currentPrice| /
            normalizedValue currentPrice ≤ p / 100)) ∧
    (normalizedValue currentPrice = 0 →
      updateDecision { type := ToleranceType.percentage, value := p }
          newPrice currentPrice = UpdateDecision.submit) := by
  rw [updateDecision_of_fresh _ _ _ hfresh, isPriceDeviationAcceptable_percentage]
  constructor
  · intro hz
    rw [if_neg hz]
    by_cases h : |normalizedValue newPrice - normalizedValue currentPrice| /
        normalizedValue currentPrice ≤ p / 100
    · simp [h]
    · simp [h]
  · intro hz
    rw [if_pos hz]
    have hmax : ¬ MAX_SAFE_INTEGER ≤ p / 100 := by
      rw [MAX_SAFE_INTEGER]
      intro hle
      have : p / 100 ≤ 1 := by linarith
      linarith
    simp [hmax]

/-- Witness for C3, applying the theorem twice: once with a nonzero
on-chain value (quote 10050 vs on-chain 10000 at expo -2, tolerance 1%,
relative deviation 0.5% — skip) and once with a zero on-chain value
(always submit). -/
theorem percentage_tolerance_skip_iff_witness :
    ((1000 : ℤ) < 2000 ∧ (0 : ℚ) ≤ 1 ∧ (1 : ℚ) ≤ 100 ∧
      updateDecision { type := ToleranceType.percentage, value := 1 }
        { price := 10050, conf := 10, expo := -2, publish_time := 2000 }
        { price := 10000, conf := 10, expo := -2, publish_time := 1000 }
        = UpdateDecision.skippedWithinTolerance) ∧
    ((0 : ℚ) ≤ 10 ∧ (10 : ℚ) ≤ 100 ∧
      updateDecision { type := ToleranceType.percentage, value := 10 }
        { price := 10000, conf := 10, expo := -2, publish_time := 2000 }
        { price := 0, conf := 10, expo := -2, publish_time := 1000 }
        = UpdateDecision.submit) := by
  constructor
  · refine ⟨by decide, by norm_num, by norm_num, ?_⟩
    refine (percentage_tolerance_skip_iff 1
      { price := 10050, conf := 10, expo := -2, publish_time := 2000 }
      { price := 10000, conf := 10, expo := -2, publish_time := 1000 }
      (by decide) (by norm_num) (by norm_num)).1 ?_ |>.mpr ?_
    · norm_num [normalizedValue]
    · norm_num [normalizedValue, abs_of_nonneg]
  · refine ⟨by norm_num, by norm_num, ?_⟩
    exact (percentage_tolerance_skip_iff 10
      { price := 10000, conf := 10, expo := -2, publish_time := 2000 }
      { price := 0, conf := 10, expo := -2, publish_time := 1000 }
      (by decide) (by norm_num) (by norm_num)).2
      (by norm_num [normalizedValue])

/-- C4 counterexample: with the default tolerance (absolute, value 0) a
strictly newer quote whose normalized value equals the on-chain value is
not submitted — the deviation 0 lies within the inclusive tolerance 0, so
the decision is a skip, refuting "the decision is Submit regardless of
the price values". -/
theorem default_tolerance_equal_price_not_submit :
    (1000 : ℤ) < 2000 ∧
      updateDecision DEFAULT_PRICE_DEVIATION_TOLERANCE
        { price := 10000, conf := 10, expo := -2, publish_time := 2000 }
        { price := 10000, conf := 10, expo := -2, publish_time := 1000 }
        ≠ UpdateDecision.submit ∧
      updateDecision DEFAULT_PRICE_DEVIATION_TOLERANCE
        { price := 10000, conf := 10, expo := -2, publish_time := 2000 }
        { price := 10000, conf := 10, expo := -2, publish_time := 1000 }
        = UpdateDecision.skippedWithinTolerance ∧
      submitInvoked DEFAULT_PRICE_DEVIATION_TOLERANCE
        { price := 10000, conf := 10, expo := -2, publish_time := 2000 }
        { price := 10000, conf := 10, expo := -2, publish_time := 1000 }
        = false := by
  have hdec : updateDecision DEFAULT_PRICE_DEVIATION_TOLERANCE
      { price := 10000, conf := 10, expo := -2, publish_time := 2000 }
      { price := 10000, conf := 10, expo := -2, publish_time := 1000 }
      = UpdateDecision.skippedWithinTolerance := by
    simp only [updateDecision, isPriceDeviationAcceptable, normalizedValue,
      DEFAULT_PRICE_DEVIATION_TOLERANCE]
    norm_num [abs_le]
  have hsub : submitInvoked DEFAULT_PRICE_DEVIATION_TOLERANCE
      { price := 10000, conf := 10, expo := -2, publish_time := 2000 }
      { price := 10000, conf := 10, expo := -2, publish_time := 1000 }
      = false := by
    simp only [submitInvoked, canIgnorePriceUpdate, isPriceDeviationAcceptable,
      normalizedValue, DEFAULT_PRICE_DEVIATION_TOLERANCE]
    norm_num [abs_le]
  exact ⟨by decide, by rw [hdec]; decide, hdec, hsub⟩

/-- C4 amended: with the default tolerance (absolute, value 0) a strictly
newer quote is submitted exactly when its normalized value differs from
the normalized on-chain value; when the two normalized values are equal
the decision is `skippedWithinTolerance`, not a submit. -/
theorem default_tolerance_submit_iff (newPrice currentPrice : PriceRecord)
    (hfresh : currentPrice.publish_time < newPrice.publish_time) :
    (updateDecision DEFAULT_PRICE_DEVIATION_TOLERANCE newPrice currentPrice
        = UpdateDecision.submit ↔
      normalizedValue newPrice ≠ normalizedValue currentPrice) ∧
    (normalizedValue newPrice = normalizedValue currentPrice →
      updateDecision DEFAULT_PRICE_DEVIATION_TOLERANCE newPrice currentPrice
        = UpdateDecision.skippedWithinTolerance) := by
  have h := absolute_tolerance_skip_iff 0 newPrice currentPrice hfresh
  have habs : |normalizedValue newPrice - normalizedValue currentPrice| ≤ 0 ↔
      normalizedValue newPrice = normalizedValue currentPrice := by
    rw [abs_nonpos_iff, sub_eq_zero]
  have hd : DEFAULT_PRICE_DEVIATION_TOLERANCE
      = { type := ToleranceType.absolute, value := (0 : ℚ) } := rfl
  rw [hd]
  refine ⟨?_, ?_⟩
  · rw [h.2, habs.not]
  · intro heq
    exact h.1.mpr (habs.mpr heq)

/-- Witness for the amended C4: quote 10001 vs on-chain 10000 at expo -2
(differing values → submit), and the skip direction at equal values is
exercised by the counterexample above. -/
theorem default_tolerance_submit_iff_witness :
    (1000 : ℤ) < 2000 ∧
      updateDecision DEFAULT_PRICE_DEVIATION_TOLERANCE
        { price := 10001, conf := 10, expo := -2, publish_time := 2000 }
        { price := 10000, conf := 10, expo := -2, publish_time := 1000 }
        = UpdateDecision.submit :=
  ⟨by decide,
    (default_tolerance_submit_iff
      { price := 10001, conf := 10, expo := -2, publish_time := 2000 }
      { price := 10000, conf := 10, expo := -2, publish_time := 1000 }
      (by decide)).1.mpr (by norm_num [normalizedValue])⟩

/-! ## Lifecycle theorems -/

/-- Once running, further callers of the synchronous prefix of `start`
leave the state untouched and none of them proceeds. -/
theorem runStarters_of_running (n : ℕ) (s : SchedState)
    (h : s.isRunning = true) : runStarters n s = (s, 0) := by
  induction n with
  | zero => rfl
  | succ n ih =>
      simp [runStarters, startSync, h, ih]

/-- C5: `start` is idempotent while running — a caller that observes
`#isRunning = true` returns without changing any state and does not
proceed to initialization; a caller that observes `false` flips
`#isRunning` to `true` within the same synchronous block (before the
first suspension point); hence among `n ≥ 1` serialized concurrent
callers starting from a non-running state, exactly one proceeds to
initialization and the initial cycle. -/
theorem start_idempotent_single_flight (s : SchedState) (n : ℕ) :
    (s.isRunning = true → startSync s = (s, false)) ∧
    (s.isRunning = false →
      (startSync s).1.isRunning = true ∧ (startSync s).2 = true) ∧
    (s.isRunning = false → 1 ≤ n → (runStarters n s).2 = 1) := by
  refine ⟨fun h => by simp [startSync, h],
    fun h => by simp [startSync, h],
    fun h hn => ?_⟩
  cases n with
  | zero => exact absurd hn (by omega)
  | succ n =>
      have hrun : (startSync s).1.isRunning = true := by simp [startSync, h]
      have hrest := runStarters_of_running n (startSync s).1 hrun
      simp only [runStarters, hrest]
      simp [startSync, h]

/-- Witness for C5: from a fresh client, three serialized `start` callers
produce exactly one proceeding caller. -/
theorem start_idempotent_single_flight_witness :
    initState.isRunning = false ∧ 1 ≤ 3 ∧
      (runStarters 3 initState).2 = 1 :=
  ⟨rfl, by omega,
    (start_idempotent_single_flight initState 3).2.2 rfl (by omega)⟩

/-- C8: failure asymmetry of `start`.  From a non-running, uninitialized
client: if the one-time initialization fails, `start` rethrows (the
sanitized error) and resets `#isRunning` to `false`; if initialization
succeeds, `start` resolves normally even when the initial cycle fails,
leaving the client running with the next timer armed.  Moreover in the
scheduling loop a cycle-completion step is identical for a successful and
a failed cycle, and it arms the next timer exactly when the client is
still running. -/
theorem start_failure_asymmetry (s : ClientInitState) (c : Bool)
    (hrun : s.isRunning = false) (hinit : s.initialized = false) :
    ((startRun s false c).2 = StartResult.threw ∧
      (startRun s false c).1.isRunning = false) ∧
    ((startRun s true c).2 = StartResult.ok ∧
      (startRun s true c).1.isRunning = true ∧
      (startRun s true c).1.timerPending = true) ∧
    (∀ (t : SchedState) (ok : Bool),
      step t (SchedLabel.cycleEnd ok) = step t (SchedLabel.cycleEnd true)) ∧
    (∀ (t t2 : SchedState) (ok : Bool),
      step t (SchedLabel.cycleEnd ok) = some t2 →
        t2.timerPending = t.isRunning) := by
  refine ⟨?_, ?_, fun t ok => rfl, fun t t2 ok h => ?_⟩
  · constructor <;> simp [startRun, hrun, hinit]
  · refine ⟨?_, ?_, ?_⟩ <;> simp [startRun, hrun, hinit]
  · simp only [step] at h
    split at h
    · cases h
      rfl
    · exact absurd h (by simp)

/-- Witness for C8: a fresh client; a failing initialization throws and
leaves the client stopped, while a failing initial cycle after a
successful initialization does not throw and still arms the timer. -/
theorem start_failure_asymmetry_witness :
    ({ isRunning := false, initialized := false, timerPending := false }
        : ClientInitState).isRunning = false ∧
    ({ isRunning := false, initialized := false, timerPending := false }
        : ClientInitState).initialized = false ∧
    (startRun { isRunning := false, initialized := false, timerPending := false }
        false false).2 = StartResult.threw ∧
    (startRun { isRunning := false, initialized := false, timerPending := false }
        true false).2 = StartResult.ok ∧
    (startRun { isRunning := false, initialized := false, timerPending := false }
        true false).1.timerPending = true :=
  have h := start_failure_asymmetry
    { isRunning := false, initialized := false, timerPending := false }
    false rfl rfl
  ⟨rfl, rfl, h.1.1, h.2.1.1, h.2.1.2.2⟩

/-- C9: `getStatus` is a total function of exactly the four fields
`#isRunning`, `#senderAddress`, `#priceFeedId`,
`#config.contractAddress`: its projections are those fields, and two
clients agreeing on them — whatever their wallet secret, gas price, or
endpoints — produce identical snapshots, so no secret or raw
configuration value can influence (or appear in) the snapshot. -/
theorem getStatus_noninterference (c1 c2 : ClientFields)
    (hrun : c1.isRunning = c2.isRunning)
    (haddr : c1.senderAddress = c2.senderAddress)
    (hfeed : c1.priceFeedId = c2.priceFeedId)
    (hcontract : c1.contractAddress = c2.contractAddress) :
    getStatus c1 = getStatus c2 ∧
    (getStatus c1).isRunning = c1.isRunning ∧
    (getStatus c1).address = c1.senderAddress ∧
    (getStatus c1).priceFeedId = c1.priceFeedId ∧
    (getStatus c1).contractAddress = c1.contractAddress := by
  refine ⟨?_, rfl, rfl, rfl, rfl⟩
  simp [getStatus, hrun, haddr, hfeed, hcontract]

/-- Witness for C9: two clients sharing the four observable fields but
differing in wallet secret, gas price and RPC endpoint have identical
snapshots. -/
theorem getStatus_noninterference_witness :
    getStatus
        { isRunning := true, senderAddress := some "akash1sender",
          priceFeedId := some "feed", contractAddress := "akash1contract",
          walletSecret := { isMnemonic := true, value := "secret words one" },
          gasPrice := "0.025uakt", rpcEndpoint := "https://rpc-a.example",
          hermesEndpoint := "https://hermes.example", denom := "uakt",
          updateIntervalMs := 60000 }
      = getStatus
        { isRunning := true, senderAddress := some "akash1sender",
          priceFeedId := some "feed", contractAddress := "akash1contract",
          walletSecret := { isMnemonic := false, value := "deadbeef" },
          gasPrice := "1.5uakt", rpcEndpoint := "https://rpc-b.example",
          hermesEndpoint := "https://hermes.example", denom := "uakt",
          updateIntervalMs := 60000 } :=
  (getStatus_noninterference
    { isRunning := true, senderAddress := some "akash1sender",
      priceFeedId := some "feed", contractAddress := "akash1contract",
      walletSecret := { isMnemonic := true, value := "secret words one" },
      gasPrice := "0.025uakt", rpcEndpoint := "https://rpc-a.example",
      hermesEndpoint := "https://hermes.example", denom := "uakt",
      updateIntervalMs := 60000 }
    { isRunning := true, senderAddress := some "akash1sender",
      priceFeedId := some "feed", contractAddress := "akash1contract",
      walletSecret := { isMnemonic := false, value := "deadbeef" },
      gasPrice := "1.5uakt", rpcEndpoint := "https://rpc-b.example",
      hermesEndpoint := "https://hermes.example", denom := "uakt",
      updateIntervalMs := 60000 }
    rfl rfl rfl rfl).1

/-- One enabled step from a stopped state with no pending timer, other
than a fresh `start` entry, keeps the client stopped with no pending
timer and cannot increase the number of in-flight cycles. -/
theorem stopped_step_inv (s s2 : SchedState) (l : SchedLabel)
    (hrun : s.isRunning = false) (htimer : s.timerPending = false)
    (hl1 : l ≠ SchedLabel.startCall)
    (hl2 : l ≠ SchedLabel.startCallAbortedSignal)
    (hstep : step s l = some s2) :
    s2.isRunning = false ∧ s2.timerPending = false ∧
      s2.activeCycles ≤ s.activeCycles := by
  cases l with
  | startCall => exact absurd rfl hl1
  | startCallAbortedSignal => exact absurd rfl hl2
  | startFail =>
      simp only [step] at hstep
      split at hstep
      · cases hstep
        exact ⟨rfl, htimer, Nat.le_refl _⟩
      · exact absurd hstep (by simp)
  | abortFire =>
      simp only [step] at hstep
      split at hstep
      · cases hstep
        exact ⟨rfl, rfl, Nat.le_refl _⟩
      · exact absurd hstep (by simp)
  | cycleEntry =>
      simp only [step] at hstep
      split at hstep
      · cases hstep
        refine ⟨hrun, htimer, ?_⟩
        simp [hrun]
      · exact absurd hstep (by simp)
  | timerFire =>
      simp only [step] at hstep
      split at hstep
      case isTrue hp => exact absurd hp (by simp [htimer])
      case isFalse => exact absurd hstep (by simp)
  | cycleEnd ok =>
      simp only [step] at hstep
      split at hstep
      · cases hstep
        exact ⟨hrun, hrun, Nat.sub_le _ _⟩
      · exact absurd hstep (by simp)

/-- A trace that contains no fresh `start` entry, run from a stopped
state with no pending timer, keeps the client stopped with no pending
timer and never increases the number of in-flight cycles. -/
theorem runTrace_stopped (ls : List SchedLabel) :
    ∀ s s2 : SchedState, s.isRunning = false → s.timerPending = false →
      SchedLabel.startCall ∉ ls → SchedLabel.startCallAbortedSignal ∉ ls →
      runTrace s ls = some s2 →
      s2.isRunning = false ∧ s2.timerPending = false ∧
        s2.activeCycles ≤ s.activeCycles := by
  induction ls with
  | nil =>
      intro s s2 h1 h2 _ _ hrt
      simp only [runTrace, Option.some.injEq] at hrt
      subst hrt
      exact ⟨h1, h2, Nat.le_refl _⟩
  | cons l ls ih =>
      intro s s2 h1 h2 hn1 hn2 hrt
      cases hstep : step s l with
      | none => simp [runTrace, hstep] at hrt
      | some smid =>
          simp only [runTrace, hstep] at hrt
          have hl1 : l ≠ SchedLabel.startCall := by
            intro h
            subst h
            exact hn1 (List.mem_cons_self _ _)
          have hl2 : l ≠ SchedLabel.startCallAbortedSignal := by
            intro h
            subst h
            exact hn2 (List.mem_cons_self _ _)
          obtain ⟨a, b, c⟩ := stopped_step_inv s smid l h1 h2 hl1 hl2 hstep
          obtain ⟨d, e, f⟩ := ih smid s2 a b
            (fun h => hn1 (List.mem_cons_of_mem l h))
            (fun h => hn2 (List.mem_cons_of_mem l h)) hrt
          exact ⟨d, e, le_trans f c⟩

/-- C6: when the abort listener fires, the pending timer (if any) is
cleared and `#isRunning` flips to `false` within the same synchronous
block — so `status().isRunning` reads `false` from that moment; a cycle
already in flight can still complete but arms no further timer; and along
any continuation that contains no fresh `start` call the client stays
stopped, keeps no timer, and never gains an in-flight cycle — the
cycle-starting blocks are never enabled again. -/
theorem abort_stops_scheduler (s s0 : SchedState)
    (habort : step s SchedLabel.abortFire = some s0) :
    s0.isRunning = false ∧ s0.timerPending = false ∧
    step s0 SchedLabel.timerFire = none ∧
    (∀ (ok : Bool) (s1 : SchedState),
        step s0 (SchedLabel.cycleEnd ok) = some s1 →
        s1.timerPending = false ∧ s1.activeCycles = s0.activeCycles - 1) ∧
    (∀ (ls : List SchedLabel) (s2 : SchedState),
        SchedLabel.startCall ∉ ls → SchedLabel.startCallAbortedSignal ∉ ls →
        runTrace s0 ls = some s2 →
        s2.isRunning = false ∧ s2.timerPending = false ∧
          s2.activeCycles ≤ s0.activeCycles) := by
  simp only [step] at habort
  split at habort
  case isFalse => exact absurd habort (by simp)
  case isTrue hl =>
  cases habort
  refine ⟨rfl, rfl, by simp [step], ?_, ?_⟩
  · intro ok s1 h
    simp only [step] at h
    split at h
    · cases h
      exact ⟨rfl, rfl⟩
    · exact absurd h (by simp)
  · intro ls s2 hn1 hn2 hrt
    exact runTrace_stopped ls _ s2 rfl rfl hn1 hn2 hrt

/-- Witness for C6: a running client with an armed timer and one
in-flight cycle; abort clears the timer and stops it; the in-flight
cycle completes without re-arming; a subsequent timer fire is disabled. -/
theorem abort_stops_scheduler_witness :
    step
        { isRunning := true, timerPending := true, initialPending := false,
          activeCycles := 1, listenerArmed := true }
        SchedLabel.abortFire
      = some
        { isRunning := false, timerPending := false, initialPending := false,
          activeCycles := 1, listenerArmed := false } ∧
    ({ isRunning := false, timerPending := false, initialPending := false,
        activeCycles := 1, listenerArmed := false } : SchedState).isRunning
      = false ∧
    step
        { isRunning := false, timerPending := false, initialPending := false,
          activeCycles := 1, listenerArmed := false }
        SchedLabel.timerFire = none ∧
    SchedLabel.startCall ∉ [SchedLabel.cycleEnd false] ∧
    runTrace
        { isRunning := false, timerPending := false, initialPending := false,
          activeCycles := 1, listenerArmed := false }
        [SchedLabel.cycleEnd false]
      = some
        { isRunning := false, timerPending := false, initialPending := false,
          activeCycles := 0, listenerArmed := false } ∧
    ({ isRunning := false, timerPending := false, initialPending := false,
        activeCycles := 0, listenerArmed := false } : SchedState).timerPending
      = false ∧
    ({ isRunning := false, timerPending := false, initialPending := false,
        activeCycles := 0, listenerArmed := false } : SchedState).activeCycles
      ≤ ({ isRunning := false, timerPending := false, initialPending := false,
            activeCycles := 1, listenerArmed := false } : SchedState).activeCycles :=
  have h := abort_stops_scheduler
    { isRunning := true, timerPending := true, initialPending := false,
      activeCycles := 1, listenerArmed := true }
    { isRunning := false, timerPending := false, initialPending := false,
      activeCycles := 1, listenerArmed := false }
    (by decide)
  have h5 := h.2.2.2.2 [SchedLabel.cycleEnd false]
    { isRunning := false, timerPending := false, initialPending := false,
      activeCycles := 0, listenerArmed := false }
    (by decide) (by decide) (by decide)
  ⟨by decide, h.1, h.2.2.1, by decide, by decide, h5.2.1, h5.2.2⟩

/-- Each enabled step increases the scheduler's pending work by at most
the number of fresh `start` entries it contains (one for a `start` entry,
zero otherwise). -/
theorem schedLoad_step (s s2 : SchedState) (l : SchedLabel)
    (hstep : step s l = some s2) :
    schedLoad s2 ≤ schedLoad s + (if isStartLabel l then 1 else 0) := by
  cases l with
  | startCall =>
      simp only [step] at hstep
      split at hstep
      · exact absurd hstep (by simp)
      · cases hstep
        simp only [schedLoad, isStartLabel]
        split_ifs <;> omega
  | startCallAbortedSignal =>
      simp only [step] at hstep
      split at hstep
      · exact absurd hstep (by simp)
      · cases hstep
        simp only [schedLoad, isStartLabel]
        split_ifs <;> omega
  | startFail =>
      simp only [step] at hstep
      split at hstep
      · cases hstep
        simp only [schedLoad, isStartLabel]
        split_ifs <;> omega
      · exact absurd hstep (by simp)
  | abortFire =>
      simp only [step] at hstep
      split at hstep
      · cases hstep
        simp only [schedLoad, isStartLabel]
        split_ifs <;> omega
      · exact absurd hstep (by simp)
  | cycleEntry =>
      simp only [step] at hstep
      split at hstep
      · cases hstep
        simp only [schedLoad, isStartLabel]
        split_ifs <;> omega
      · exact absurd hstep (by simp)
  | timerFire =>
      simp only [step] at hstep
      split at hstep
      · cases hstep
        simp only [schedLoad, isStartLabel]
        split_ifs <;> omega
      · exact absurd hstep (by simp)
  | cycleEnd ok =>
      simp only [step] at hstep
      split at hstep
      case isTrue hc =>
        cases hstep
        simp only [schedLoad, isStartLabel]
        split_ifs <;> omega
      case isFalse => exact absurd hstep (by simp)

/-- Along any enabled trace the scheduler's pending work grows by at most
the number of fresh `start` entries in the trace. -/
theorem runTrace_load (ls : List SchedLabel) :
    ∀ s s2 : SchedState, runTrace s ls = some s2 →
      schedLoad s2 ≤ schedLoad s + countStarts ls := by
  induction ls with
  | nil =>
      intro s s2 hrt
      simp only [runTrace, Option.some.injEq] at hrt
      subst hrt
      simp [countStarts]
  | cons l ls ih =>
      intro s s2 hrt
      cases hstep : step s l with
      | none => simp [runTrace, hstep] at hrt
      | some smid =>
          simp only [runTrace, hstep] at hrt
          have h1 := schedLoad_step s smid l hstep
          have h2 := ih smid s2 hrt
          by_cases hb : isStartLabel l = true
          · have hc : countStarts (l :: ls) = countStarts ls + 1 := by
              simp [countStarts, hb]
            rw [if_pos hb] at h1
            omega
          · have hc : countStarts (l :: ls) = countStarts ls := by
              simp [countStarts, hb]
            rw [if_neg hb] at h1
            omega

/-- C7: the scheduler is self-rescheduling, not fixed-rate.  (1) No step
arms the inter-cycle timer except a cycle-completion block: if the timer
is armed after a step and was not armed before, that step was a
`cycleEnd`.  (2) A cycle-completion block requires an in-flight cycle,
removes it, and arms the next timer exactly when the client is still
running — the interval is measured from the completion.  (3) From a fresh
client, along any trace with at most one `start` entry, at most one cycle
is in flight at every instant, and while one is in flight neither a timer
nor a pending initial invocation exists, so no second cycle can begin
before it completes. -/
theorem scheduler_no_overlap :
    (∀ (s s2 : SchedState) (l : SchedLabel),
        step s l = some s2 → s2.timerPending = true →
        s.timerPending = true ∨ isCycleEnd l = true) ∧
    (∀ (s s2 : SchedState) (ok : Bool),
        step s (SchedLabel.cycleEnd ok) = some s2 →
        0 < s.activeCycles ∧ s2.activeCycles = s.activeCycles - 1 ∧
          s2.timerPending = s.isRunning) ∧
    (∀ (ls : List SchedLabel) (s2 : SchedState),
        countStarts ls ≤ 1 → runTrace initState ls = some s2 →
        s2.activeCycles ≤ 1 ∧
          (0 < s2.activeCycles →
            s2.timerPending = false ∧ s2.initialPending = false)) := by
  refine ⟨?_, ?_, ?_⟩
  · intro s s2 l hstep htimer
    cases l with
    | startCall =>
        simp only [step] at hstep
        split at hstep
        · exact absurd hstep (by simp)
        · cases hstep
          exact Or.inl htimer
    | startCallAbortedSignal =>
        simp only [step] at hstep
        split at hstep
        · exact absurd hstep (by simp)
        · cases hstep
          exact Or.inl htimer
    | startFail =>
        simp only [step] at hstep
        split at hstep
        · cases hstep
          exact Or.inl htimer
        · exact absurd hstep (by simp)
    | abortFire =>
        simp only [step] at hstep
        split at hstep
        · cases hstep
          exact absurd htimer (by simp)
        · exact absurd hstep (by simp)
    | cycleEntry =>
        simp only [step] at hstep
        split at hstep
        · cases hstep
          exact Or.inl htimer
        · exact absurd hstep (by simp)
    | timerFire =>
        simp only [step] at hstep
        split at hstep
        · cases hstep
          exact absurd htimer (by simp)
        · exact absurd hstep (by simp)
    | cycleEnd ok => exact Or.inr rfl
  · intro s s2 ok hstep
    simp only [step] at hstep
    split at hstep
    case isTrue hc =>
      cases hstep
      exact ⟨hc, rfl, rfl⟩
    case isFalse => exact absurd hstep (by simp)
  · intro ls s2 hcount hrt
    have hload := runTrace_load ls initState s2 hrt
    have hinit : schedLoad initState = 0 := rfl
    rw [hinit] at hload
    simp only [schedLoad] at hload
    constructor
    · split_ifs at hload <;> omega
    · intro hpos
      constructor
      · by_cases ht : s2.timerPending = true
        · rw [if_pos ht] at hload
          split_ifs at hload <;> omega
        · simpa using ht
      · by_cases hi : s2.initialPending = true
        · rw [if_pos hi] at hload
          split_ifs at hload <;> omega
        · simpa using hi

/-- Witness for C7: a five-block trace with one `start` entry — start,
initial cycle entry, its completion (arming the timer), the timer firing
into cycle two, and cycle two failing — stays within one in-flight cycle,
and the concrete cycle-completion step re-arms the timer. -/
theorem scheduler_no_overlap_witness :
    countStarts
        [SchedLabel.startCall, SchedLabel.cycleEntry, SchedLabel.cycleEnd true,
          SchedLabel.timerFire, SchedLabel.cycleEnd false] ≤ 1 ∧
    runTrace initState
        [SchedLabel.startCall, SchedLabel.cycleEntry, SchedLabel.cycleEnd true,
          SchedLabel.timerFire, SchedLabel.cycleEnd false]
      = some
        { isRunning := true, timerPending := true, initialPending := false,
          activeCycles := 0, listenerArmed := true } ∧
    ({ isRunning := true, timerPending := true, initialPending := false,
        activeCycles := 0, listenerArmed := true } : SchedState).activeCycles
      ≤ 1 ∧
    (0 <
      ({ isRunning := true, timerPending := false, initialPending := false,
          activeCycles := 1, listenerArmed := true } : SchedState).activeCycles ∧
      step
          { isRunning := true, timerPending := false, initialPending := false,
            activeCycles := 1, listenerArmed := true }
          (SchedLabel.cycleEnd false)
        = some
          { isRunning := true, timerPending := true, initialPending := false,
            activeCycles := 0, listenerArmed := true } ∧
      ({ isRunning := true, timerPending := true, initialPending := false,
          activeCycles := 0, listenerArmed := true } : SchedState).timerPending
        = ({ isRunning := true, timerPending := false, initialPending := false,
              activeCycles := 1, listenerArmed := true } : SchedState).isRunning) :=
  have h3 := scheduler_no_overlap.2.2
    [SchedLabel.startCall, SchedLabel.cycleEntry, SchedLabel.cycleEnd true,
      SchedLabel.timerFire, SchedLabel.cycleEnd false]
    { isRunning := true, timerPending := true, initialPending := false,
      activeCycles := 0, listenerArmed := true }
    (by decide) (by decide)
  have h2 := scheduler_no_overlap.2.1
    { isRunning := true, timerPending := false, initialPending := false,
      activeCycles := 1, listenerArmed := true }
    { isRunning := true, timerPending := true, initialPending := false,
      activeCycles := 0, listenerArmed := true }
    false (by decide)
  ⟨by decide, by decide, h3.1, h2.1, by decide, h2.2.2⟩

/-- From a running client with no live abort listener, any enabled step
other than an initialization failure keeps the client running with no
live listener: no block can set `#isRunning` to `false`. -/
theorem running_unkillable_step (s s2 : SchedState) (l : SchedLabel)
    (hrun : s.isRunning = true) (hlis : s.listenerArmed = false)
    (hl : l ≠ SchedLabel.startFail) (hstep : step s l = some s2) :
    s2.isRunning = true ∧ s2.listenerArmed = false := by
  cases l with
  | startCall => simp [step, hrun] at hstep
  | startCallAbortedSignal => simp [step, hrun] at hstep
  | startFail => exact absurd rfl hl
  | abortFire => simp [step, hlis] at hstep
  | cycleEntry =>
      simp only [step] at hstep
      split at hstep
      · cases hstep
        exact ⟨hrun, hlis⟩
      · exact absurd hstep (by simp)
  | timerFire =>
      simp only [step] at hstep
      split at hstep
      · cases hstep
        exact ⟨hrun, hlis⟩
      · exact absurd hstep (by simp)
  | cycleEnd ok =>
      simp only [step] at hstep
      split at hstep
      · cases hstep
        exact ⟨hrun, hlis⟩
      · exact absurd hstep (by simp)

/-- A trace without an initialization failure, run from a running client
with no live abort listener, keeps the client running with no live
listener. -/
theorem runTrace_running (ls : List SchedLabel) :
    ∀ s s2 : SchedState, s.isRunning = true → s.listenerArmed = false →
      SchedLabel.startFail ∉ ls → runTrace s ls = some s2 →
      s2.isRunning = true ∧ s2.listenerArmed = false := by
  induction ls with
  | nil =>
      intro s s2 h1 h2 _ hrt
      simp only [runTrace, Option.some.injEq] at hrt
      subst hrt
      exact ⟨h1, h2⟩
  | cons l ls ih =>
      intro s s2 h1 h2 hnf hrt
      cases hstep : step s l with
      | none => simp [runTrace, hstep] at hrt
      | some smid =>
          simp only [runTrace, hstep] at hrt
          have hl : l ≠ SchedLabel.startFail := by
            intro h
            subst h
            exact hnf (List.mem_cons_self _ _)
          obtain ⟨a, b⟩ := running_unkillable_step s smid l h1 h2 hl hstep
          exact ih smid s2 a b (fun h => hnf (List.mem_cons_of_mem l h)) hrt

/-- C10: calling `start` with a signal that aborted before the call
registers a listener that never fires.  The client (with no other live
listener) still flips to running with the initial invocation pending; the
initial cycle entry really starts a cycle; and along any continuation in
which initialization succeeds the client stays running (so
`status().isRunning` stays `true`), the abort block is never enabled, and
every cycle completion arms the next timer — cancellation is never
observed. -/
theorem preaborted_signal_never_cancels (s s0 : SchedState)
    (hlis : s.listenerArmed = false)
    (hstart : step s SchedLabel.startCallAbortedSignal = some s0) :
    s0.isRunning = true ∧ s0.initialPending = true ∧
    s0.listenerArmed = false ∧
    (∀ s1 : SchedState, step s0 SchedLabel.cycleEntry = some s1 →
        s1.activeCycles = s0.activeCycles + 1) ∧
    (∀ (ls : List SchedLabel) (s2 : SchedState),
        SchedLabel.startFail ∉ ls → runTrace s0 ls = some s2 →
        s2.isRunning = true ∧
        step s2 SchedLabel.abortFire = none ∧
        (∀ (ok : Bool) (s3 : SchedState),
            step s2 (SchedLabel.cycleEnd ok) = some s3 →
            s3.timerPending = true)) := by
  simp only [step] at hstart
  split at hstart
  case isTrue => exact absurd hstart (by simp)
  case isFalse hr =>
  cases hstart
  refine ⟨rfl, rfl, hlis, ?_, ?_⟩
  · intro s1 h
    simp only [step] at h
    split at h
    · cases h
      simp
    · exact absurd h (by simp)
  · intro ls s2 hnf hrt
    obtain ⟨ha, hb⟩ := runTrace_running ls
      { s with isRunning := true, initialPending := true } s2 rfl hlis hnf hrt
    refine ⟨ha, by simp [step, hb], ?_⟩
    intro ok s3 h
    simp only [step] at h
    split at h
    · cases h
      exact ha
    · exact absurd h (by simp)

/-- Witness for C10: a fresh client started with an already-aborted
signal runs the initial cycle, completes it, fires the next timer, and
after all that is still running with the abort block disabled and the
next completion arming a timer again. -/
theorem preaborted_signal_never_cancels_witness :
    initState.listenerArmed = false ∧
    step initState SchedLabel.startCallAbortedSignal
      = some
        { isRunning := true, timerPending := false, initialPending := true,
          activeCycles := 0, listenerArmed := false } ∧
    SchedLabel.startFail ∉
      [SchedLabel.cycleEntry, SchedLabel.cycleEnd true, SchedLabel.timerFire] ∧
    runTrace
        { isRunning := true, timerPending := false, initialPending := true,
          activeCycles := 0, listenerArmed := false }
        [SchedLabel.cycleEntry, SchedLabel.cycleEnd true, SchedLabel.timerFire]
      = some
        { isRunning := true, timerPending := false, initialPending := false,
          activeCycles := 1, listenerArmed := false } ∧
    ({ isRunning := true, timerPending := false, initialPending := false,
        activeCycles := 1, listenerArmed := false } : SchedState).isRunning
      = true ∧
    step
        { isRunning := true, timerPending := false, initialPending := false,
          activeCycles := 1, listenerArmed := false }
        SchedLabel.abortFire = none ∧
    step
        { isRunning := true, timerPending := false, initialPending := false,
          activeCycles := 1, listenerArmed := false }
        (SchedLabel.cycleEnd false)
      = some
        { isRunning := true, timerPending := true, initialPending := false,
          activeCycles := 0, listenerArmed := false } ∧
    ({ isRunning := true, timerPending := true, initialPending := false,
        activeCycles := 0, listenerArmed := false } : SchedState).timerPending
      = true :=
  have h := preaborted_signal_never_cancels initState
    { isRunning := true, timerPending := false, initialPending := true,
      activeCycles := 0, listenerArmed := false }
    rfl (by decide)
  have h5 := h.2.2.2.2
    [SchedLabel.cycleEntry, SchedLabel.cycleEnd true, SchedLabel.timerFire]
    { isRunning := true, timerPending := false, initialPending := false,
      activeCycles := 1, listenerArmed := false }
    (by decide) (by decide)
  ⟨rfl, by decide, by decide, by decide, h5.1, h5.2.1,
    by decide,
    h5.2.2 false
      { isRunning := true, timerPending := true, initialPending := false,
        activeCycles := 0, listenerArmed := false }
      (by decide)⟩

end Hermes
